import Mathlib

/-
  Verification development for the LoRa UART wrapper (src/LoRa.py).

  Bytes are modelled as `List Nat` (one Nat per byte, ASCII); the `Result`
  type of the rs_result library is modelled as a plain sum; a Python
  function that may raise an uncaught exception is modelled with `Except`:
  `.error e` means the exception `e` escapes the call, `.ok r` means the
  call returns the value `r`.
-/

namespace LoRaWrap

/-- ASCII bytes of a string literal. -/
def encode (s : String) : List Nat := s.toList.map Char.toNat

/-- The CR LF line terminator. -/
def crlf : List Nat := [13, 10]

/-- The receive-notification marker `+RCV=`. -/
def rcvMarker : List Nat := encode "+RCV="

/-- The error-reply marker `+ERR` (the code tests this 4-byte marker). -/
def errMarker : List Nat := encode "+ERR"

/-- `bstartsWith s p` models Python `s.startswith(p)` on bytes. -/
def bstartsWith : List Nat → List Nat → Bool
  | _, [] => true
  | [], _ :: _ => false
  | c :: cs, p :: ps => c == p && bstartsWith cs ps

/-- Python `raw.split(b"\r\n")`: split on each occurrence of the two-byte
terminator, left to right, keeping empty pieces. -/
def splitCRLF : List Nat → List (List Nat)
  | [] => [[]]
  | 13 :: 10 :: rest => [] :: splitCRLF rest
  | c :: rest =>
    match splitCRLF rest with
    | [] => [[c]]
    | l :: ls => (c :: l) :: ls

/-- Python `s.split(sep)` for a single-byte separator. -/
def splitByte (sep : Nat) : List Nat → List (List Nat)
  | [] => [[]]
  | c :: rest =>
    if c == sep then [] :: splitByte sep rest
    else
      match splitByte sep rest with
      | [] => [[c]]
      | l :: ls => (c :: l) :: ls

/-- Joins pieces back with a single-byte separator (used to state what a
piece of a split is, relative to the original bytes). -/
def joinByte (sep : Nat) : List (List Nat) → List Nat
  | [] => []
  | [x] => x
  | x :: y :: r => x ++ sep :: joinByte sep (y :: r)

/-- ASCII whitespace, as stripped by Python `strip()`. -/
def isSpaceByte (c : Nat) : Bool :=
  c == 32 || c == 9 || c == 10 || c == 13 || c == 11 || c == 12

/-- Drop leading ASCII whitespace. -/
def lstripBytes : List Nat → List Nat
  | [] => []
  | c :: r => if isSpaceByte c then lstripBytes r else c :: r

/-- Python `strip()`: drop whitespace from both ends. -/
def pystrip (s : List Nat) : List Nat :=
  lstripBytes (lstripBytes s.reverse).reverse

/-- Accumulate decimal digits; `none` on any non-digit byte. -/
def digitsToNatAux : List Nat → Nat → Option Nat
  | [], acc => some acc
  | d :: r, acc =>
    if 48 ≤ d && d ≤ 57 then digitsToNatAux r (acc * 10 + (d - 48)) else none

/-- A non-empty run of decimal digits, as a number. -/
def digitsToNat : List Nat → Option Nat
  | [] => none
  | l => digitsToNatAux l 0

/-- Python `int(s)` on ASCII text/bytes: strip whitespace, optional sign,
then decimal digits; `none` models a ValueError. -/
def pyInt (s : List Nat) : Option Int :=
  match pystrip s with
  | 43 :: r => (digitsToNat r).map (fun n => (n : Int))
  | 45 :: r => (digitsToNat r).map (fun n => -(n : Int))
  | r => (digitsToNat r).map (fun n => (n : Int))

/-- The `self._errors` catalog from `LoRa.__init__`: module error code to
documented description. `none` models a KeyError on lookup. -/
def errorsDescr : Int → Option String := fun c =>
  if c = 1 then some "There is not \"enter\" or 0x0D 0x0A in the end of the AT Command."
  else if c = 2 then some "The head of AT command is not \"AT\" string."
  else if c = 4 then some "Unknown command."
  else if c = 5 then some "The data to be sent does not match the actual length."
  else if c = 10 then some "TX is over times."
  else if c = 12 then some "CRC error."
  else if c = 13 then some "TX data exceeds 240 bytes."
  else if c = 14 then some "Failed to write flash memory."
  else if c = 15 then some "Unknown failure."
  else if c = 17 then some "Last TX was not completed."
  else if c = 18 then some "Preamble value is not allowed."
  else if c = 19 then some "RX failed, Header error."
  else if c = 20 then some "The time setting value of the \"Smart receiving power saving mode\" is not allowed."
  else none

/-- Python exception values that the wrapper creates or lets escape.
`CommandError` keeps the three pieces interpolated into its f-string
message: the issued command text, the catalog description, and the
stripped raw error line. -/
inductive Exc where
  | CommandError (cmd : String) (descr : String) (raw : List Nat)
  | UARTTimeoutError (timeout : Nat)
  | EmptyRecvError (msg : String)
  | KeyError (code : Int)
  | ValueError
  | IndexError
  | OSError (errno : Nat)
  deriving DecidableEq

/-- The Python class name of an exception value. -/
def excClassName : Exc → String
  | .CommandError _ _ _ => "CommandError"
  | .UARTTimeoutError _ => "UARTTimeoutError"
  | .EmptyRecvError _ => "EmptyRecvError"
  | .KeyError _ => "KeyError"
  | .ValueError => "ValueError"
  | .IndexError => "IndexError"
  | .OSError _ => "OSError"

/-- Modelled from the spec: the rs_result library (imported from
`.rs_result`, not present under src/) provides a success/failure sum with
`Ok`/`Err` wrappers; `Check.is_ok`/`Check.is_err` test the side and
`propagate` re-returns an `Err` unchanged. -/
inductive Result (α ε : Type) where
  | Ok : α → Result α ε
  | Err : ε → Result α ε
  deriving DecidableEq

/-- Modelled from the spec: `Check.first_err(rets)` returns the first
failure in the list, or none. -/
def firstErr {α : Type} : List (Result α Exc) → Option Exc
  | [] => none
  | .Ok _ :: rest => firstErr rest
  | .Err e :: _ => some e

/-- Parsed received data (`LoRa.RecvData`): address, data, rssi, snr. -/
structure RecvData where
  address : Int
  data : List Nat
  rssi : Int
  snr : Int
  deriving DecidableEq

/-- Receive failure (`LoRa.RecvErr`): the caught exception and the raw,
unprocessed bytes it concerns. -/
structure RecvErr where
  exception : Exc
  raw_data : List Nat
  deriving DecidableEq

/-- The demultiplexing loop of `command` (src/LoRa.py lines 137-142):
iterate over the CR-LF-split pieces of one read; a piece starting with
`+RCV=` is appended to the receive buffer; a non-empty other piece
overwrites the residue `raw`; the residue starts as the whole raw read.
Returns (buffer after the loop, residue after the loop). -/
def demuxStep : List (List Nat) → List Nat → List (List Nat) → List (List Nat) × List Nat
  | [], raw, buf => (buf, raw)
  | p :: rest, raw, buf =>
    if bstartsWith p rcvMarker then demuxStep rest raw (buf ++ [p])
    else if p.isEmpty then demuxStep rest raw buf
    else demuxStep rest p buf

/-- The residue classification of `command` (src/LoRa.py lines 144-147):
given the residue and the buffer after demultiplexing, either return the
residue as success, or on a `+ERR` residue decode/strip it, split on `=`,
parse the code and look it up.  Index, int-parse and lookup failures
escape as uncaught IndexError / ValueError / KeyError, in that order of
evaluation, exactly as in `self._errors[int((x := ...).split("=")[1])]`. -/
def commandClassify (cmd : String) (ign : Bool) (res : List Nat) (buf : List (List Nat)) :
    Except Exc (Result (List Nat) Exc) × List (List Nat) :=
  if !ign && bstartsWith res errMarker then
    match (splitByte 61 (pystrip res))[1]? with
    | none => (.error .IndexError, buf)
    | some cs =>
      match pyInt cs with
      | none => (.error .ValueError, buf)
      | some c =>
        match errorsDescr c with
        | none => (.error (.KeyError c), buf)
        | some d => (.ok (.Err (.CommandError cmd d (pystrip res))), buf)
  else (.ok (.Ok res), buf)

/-- `LoRa.command` (src/LoRa.py lines 118-152), after the transport write,
as a function of the `read_raw` outcome `r` and the receive buffer.
The first component is the call outcome (`.error` = uncaught exception),
the second the receive buffer afterwards. -/
def commandCore (cmd : String) (ign : Bool) (r : Result (List Nat) Exc)
    (buf : List (List Nat)) : Except Exc (Result (List Nat) Exc) × List (List Nat) :=
  match r with
  | .Err e => (.ok (.Err e), buf)
  | .Ok raw0 =>
    commandClassify cmd ign (demuxStep (splitCRLF raw0) raw0 buf).2
      (demuxStep (splitCRLF raw0) raw0 buf).1

/-- The scan loop of `recv` (src/LoRa.py lines 240-245): append `+RCV=`
pieces to the buffer; on the first non-empty other piece stop and report
it (the code returns an error there); empty pieces are skipped. -/
def recvScan : List (List Nat) → List (List Nat) → List (List Nat) × Option (List Nat)
  | [], buf => (buf, none)
  | p :: rest, buf =>
    if bstartsWith p rcvMarker then recvScan rest (buf ++ [p])
    else if p.isEmpty then recvScan rest buf
    else (buf, some p)

/-- The notification parse of `recv` (src/LoRa.py lines 256-258):
`recv = item[5:].split(b",")`, then
`RecvData(int(recv[0]), recv[2], int(recv[3]), int(recv[4]))`, with the
Python left-to-right evaluation order of the indexings and conversions. -/
def parseNotif (item : List Nat) : Except Exc RecvData :=
  match (splitByte 44 (item.drop 5))[0]? with
  | none => .error .IndexError
  | some f0 =>
    match pyInt f0 with
    | none => .error .ValueError
    | some a =>
      match (splitByte 44 (item.drop 5))[2]? with
      | none => .error .IndexError
      | some f2 =>
        match (splitByte 44 (item.drop 5))[3]? with
        | none => .error .IndexError
        | some f3 =>
          match pyInt f3 with
          | none => .error .ValueError
          | some rs =>
            match (splitByte 44 (item.drop 5))[4]? with
            | none => .error .IndexError
            | some f4 =>
              match pyInt f4 with
              | none => .error .ValueError
              | some sn => .ok ⟨a, f2, rs, sn⟩

/-- `LoRa.recv` (src/LoRa.py lines 226-261) as a function of the
`read_raw` outcome and the receive buffer: scan the read for
notifications (a non-empty non-notification piece is an immediate
failure carrying that piece), wrap a read failure, fail on an empty
buffer, else pop the front item and parse it; a parse failure carries
the exception and the popped item, which stays consumed. -/
def recvCore (r : Result (List Nat) Exc) (buf : List (List Nat)) :
    Result RecvData RecvErr × List (List Nat) :=
  match r with
  | .Ok raw =>
    match recvScan (splitCRLF raw) buf with
    | (buf', some p) => (.Err ⟨.EmptyRecvError "non +RCV data", p⟩, buf')
    | (buf', none) =>
      match buf' with
      | [] => (.Err ⟨.EmptyRecvError "recv buffer is empty", []⟩, [])
      | item :: rest =>
        match parseNotif item with
        | .ok d => (.Ok d, rest)
        | .error e => (.Err ⟨e, item⟩, rest)
  | .Err e => (.Err ⟨e, []⟩, buf)

/-- Pop the next queued `read_raw` outcome of a scripted transport. -/
def nextRead (reads : List (Result (List Nat) Exc)) :
    Result (List Nat) Exc × List (Result (List Nat) Exc) :=
  match reads with
  | [] => (.Err (.OSError 0), [])
  | r :: t => (r, t)

/-- Run a list of (command text, ignore_errors) pairs in order against a
scripted transport, as `setup` does: each call first writes the encoded
command plus CR LF, then consumes one read outcome.  Returns the list of
results (or the first uncaught exception, which stops the run), the list
of writes that reached the transport, and the final receive buffer. -/
def runCmds : List (String × Bool) → List (Result (List Nat) Exc) → List (List Nat) →
    Except Exc (List (Result (List Nat) Exc)) × List (List Nat) × List (List Nat)
  | [], _, buf => (.ok [], [], buf)
  | (c, ign) :: rest, reads, buf =>
    match commandCore c ign (nextRead reads).1 buf with
    | (.error e, buf') => (.error e, [encode c ++ crlf], buf')
    | (.ok res, buf') =>
      match runCmds rest (nextRead reads).2 buf' with
      | (.error e, ws, buf2) => (.error e, (encode c ++ crlf) :: ws, buf2)
      | (.ok results, ws, buf2) => (.ok (res :: results), (encode c ++ crlf) :: ws, buf2)

/-- The four commands issued by `setup` (src/LoRa.py lines 171-176), in
order, with their ignore_errors flags: the bare probe ignores errors,
the three configuration commands do not. -/
def setupCmds (nid addr sf bw cr pp : Nat) : List (String × Bool) :=
  [("AT", true),
   ("AT+PARAMETER=" ++ toString sf ++ "," ++ toString bw ++ "," ++ toString cr ++ "," ++ toString pp, false),
   ("AT+ADDRESS=" ++ toString addr, false),
   ("AT+NETWORKID=" ++ toString nid, false)]

/-- `LoRa.setup` (src/LoRa.py lines 154-181) against a scripted
transport: run all four commands, collect their results, and return the
first failure (via `Check.first_err`), or unit success.  Also returns
the writes that reached the transport and the final receive buffer. -/
def setupM (nid addr sf bw cr pp : Nat) (reads : List (Result (List Nat) Exc))
    (buf : List (List Nat)) :
    Except Exc (Result Unit Exc) × List (List Nat) × List (List Nat) :=
  match runCmds (setupCmds nid addr sf bw cr pp) reads buf with
  | (.error e, ws, buf') => (.error e, ws, buf')
  | (.ok results, ws, buf') =>
    match firstErr results with
    | some e => (.ok (.Err e), ws, buf')
    | none => (.ok (.Ok ()), ws, buf')

/-- `LoRa.query` (src/LoRa.py lines 263-281) as a function of the
`read_raw` outcome: issue `AT+<name>?` through the command engine; on a
successful reply strip it, split on `=` and take element 1 (an absent
element is an uncaught IndexError); propagate failures. -/
def queryM (name : String) (r : Result (List Nat) Exc) (buf : List (List Nat)) :
    Except Exc (Result (List Nat) Exc) × List (List Nat) :=
  match commandCore ("AT+" ++ name ++ "?") false r buf with
  | (.error e, buf') => (.error e, buf')
  | (.ok (.Err e), buf') => (.ok (.Err e), buf')
  | (.ok (.Ok b), buf') =>
    match (splitByte 61 (pystrip b))[1]? with
    | none => (.error .IndexError, buf')
    | some v => (.ok (.Ok v), buf')

/-- The poll loop of `read_raw` (src/LoRa.py lines 203-224).  `anyF i`
is the transport's has-data poll at iteration `i`, `clock i` the wall
time sampled there, `uread` the outcome of the final `uart.read()`
(`.error n` = the transport raised, caught and wrapped as an OSError
failure), `timeout`/`start` as in the source.  Fuel bounds the number of
poll iterations; `none` means the loop is still polling (blocked). -/
def readRawAux (anyF : Nat → Bool) (clock : Nat → Nat) (uread : Except Nat (List Nat))
    (timeout start : Nat) : Nat → Nat → Option (Result (List Nat) Exc)
  | 0, _ => none
  | fuel + 1, i =>
    if anyF i then
      match uread with
      | .ok b => some (.Ok b)
      | .error n => some (.Err (.OSError n))
    else if timeout ≠ 0 ∧ timeout ≤ clock i - start then
      some (.Err (.UARTTimeoutError timeout))
    else
      readRawAux anyF clock uread timeout start fuel (i + 1)

/-- Is an outcome the timeout failure? -/
def isTimeoutRes : Result (List Nat) Exc → Bool
  | .Err (.UARTTimeoutError _) => true
  | _ => false

/-- Does an `Except`-modelled call raise (escape with an exception)? -/
def raisedB {α : Type} : Except Exc α → Bool
  | .error _ => true
  | .ok _ => false

/-- Receive-buffer states reachable through the wrapper's operations,
starting from the empty buffer built in `__init__`. -/
inductive ReachableBuf : List (List Nat) → Prop
  | init : ReachableBuf []
  | cmd (c : String) (ign : Bool) (r : Result (List Nat) Exc) (buf : List (List Nat)) :
      ReachableBuf buf → ReachableBuf (commandCore c ign r buf).2
  | rcv (r : Result (List Nat) Exc) (buf : List (List Nat)) :
      ReachableBuf buf → ReachableBuf (recvCore r buf).2
  | setupStep (nid addr sf bw cr pp : Nat) (reads : List (Result (List Nat) Exc))
      (buf : List (List Nat)) :
      ReachableBuf buf → ReachableBuf (setupM nid addr sf bw cr pp reads buf).2.2
  | queryStep (name : String) (r : Result (List Nat) Exc) (buf : List (List Nat)) :
      ReachableBuf buf → ReachableBuf (queryM name r buf).2

/-! ## Helper lemmas about the demultiplexer -/

lemma demuxStep_fst (parts : List (List Nat)) : ∀ raw buf,
    (demuxStep parts raw buf).1 = buf ++ parts.filter (fun p => bstartsWith p rcvMarker) := by
  induction parts with
  | nil => intro raw buf; simp [demuxStep]
  | cons p rest ih =>
    intro raw buf
    by_cases h : bstartsWith p rcvMarker = true
    · simp [demuxStep, h, ih, List.filter_cons]
    · by_cases he : p.isEmpty = true
      · simp [demuxStep, h, he, ih, List.filter_cons]
      · simp [demuxStep, h, he, ih, List.filter_cons]

lemma demuxStep_snd (parts : List (List Nat)) : ∀ raw buf,
    (demuxStep parts raw buf).2 =
      (parts.filter (fun p => !bstartsWith p rcvMarker && !p.isEmpty)).getLastD raw := by
  induction parts with
  | nil => intro raw buf; rfl
  | cons p rest ih =>
    intro raw buf
    by_cases h : bstartsWith p rcvMarker = true
    · rw [show demuxStep (p :: rest) raw buf = demuxStep rest raw (buf ++ [p]) from by
        simp [demuxStep, h]]
      rw [show ((p :: rest).filter (fun p => !bstartsWith p rcvMarker && !p.isEmpty)) =
          rest.filter (fun p => !bstartsWith p rcvMarker && !p.isEmpty) from by
        simp [List.filter_cons, h]]
      exact ih raw (buf ++ [p])
    · by_cases he : p.isEmpty = true
      · rw [show demuxStep (p :: rest) raw buf = demuxStep rest raw buf from by
          simp [demuxStep, h, he]]
        rw [show ((p :: rest).filter (fun p => !bstartsWith p rcvMarker && !p.isEmpty)) =
            rest.filter (fun p => !bstartsWith p rcvMarker && !p.isEmpty) from by
          simp [List.filter_cons, h, he]]
        exact ih raw buf
      · rw [show demuxStep (p :: rest) raw buf = demuxStep rest p buf from by
          simp [demuxStep, h, he]]
        rw [show ((p :: rest).filter (fun p => !bstartsWith p rcvMarker && !p.isEmpty)) =
            p :: rest.filter (fun p => !bstartsWith p rcvMarker && !p.isEmpty) from by
          simp [List.filter_cons, h, he]]
        rw [List.getLastD_cons]
        exact ih p buf

lemma commandClassify_snd (cmd : String) (ign : Bool) (res : List Nat)
    (buf : List (List Nat)) : (commandClassify cmd ign res buf).2 = buf := by
  unfold commandClassify
  split
  · split
    · rfl
    · split
      · rfl
      · split
        · rfl
        · rfl
  · rfl

/-- C1: every raw read processed by `command` is split on CR LF; each
line starting with `+RCV=` is appended to the receive buffer in order;
the residue is the last non-empty line not starting with the marker
(starting from the whole read when no such line exists); concretely, a
read of `+RCV=5,3,abc,-40,9\r\n+OK\r\n` enqueues the notification and
yields `+OK` as the successful residue. -/
theorem command_demux_spec :
    (∀ raw buf, (demuxStep (splitCRLF raw) raw buf).1 =
        buf ++ (splitCRLF raw).filter (fun p => bstartsWith p rcvMarker)) ∧
    (∀ raw buf, (demuxStep (splitCRLF raw) raw buf).2 =
        ((splitCRLF raw).filter (fun p => !bstartsWith p rcvMarker && !p.isEmpty)).getLastD raw) ∧
    commandCore "AT" false (.Ok (encode "+RCV=5,3,abc,-40,9\r\n+OK\r\n")) [] =
      (.ok (.Ok (encode "+OK")), [encode "+RCV=5,3,abc,-40,9"]) := by
  refine ⟨fun raw buf => demuxStep_fst _ raw buf,
          fun raw buf => demuxStep_snd _ raw buf, ?_⟩
  rfl

/-- C3 counterexample: a `command` read consisting of a single `+RCV=`
notification enqueues the fragment but returns the WHOLE raw read as the
success payload — which is not empty and contains the notification
bytes, contradicting the claimed empty residue. -/
theorem command_only_notification_cex :
    commandCore "AT+SEND=1,3,abc" false (.Ok (encode "+RCV=5,3,abc,-40,9\r\n")) [] =
      (.ok (.Ok (encode "+RCV=5,3,abc,-40,9\r\n")), [encode "+RCV=5,3,abc,-40,9"]) ∧
    encode "+RCV=5,3,abc,-40,9\r\n" ≠ ([] : List Nat) := by
  exact ⟨rfl, by decide⟩

/-- C3 amended: when a successful read contains no non-empty
non-notification line, `command` returns success whose payload is the
ENTIRE original raw read (the initial residue, never overwritten) —
including the notification bytes — provided that raw read does not
itself start with `+ERR`; the notifications are still enqueued. -/
theorem command_only_notification_returns_raw : ∀ (cmd : String) (ign : Bool) raw buf,
    (splitCRLF raw).filter (fun p => !bstartsWith p rcvMarker && !p.isEmpty) = [] →
    bstartsWith raw errMarker = false →
    commandCore cmd ign (.Ok raw) buf =
      (.ok (.Ok raw), buf ++ (splitCRLF raw).filter (fun p => bstartsWith p rcvMarker)) := by
  intro cmd ign raw buf h1 h2
  have hres := demuxStep_snd (splitCRLF raw) raw buf
  rw [h1] at hres
  simp only [List.getLastD] at hres
  show commandClassify cmd ign (demuxStep (splitCRLF raw) raw buf).2
      (demuxStep (splitCRLF raw) raw buf).1 = _
  rw [hres, demuxStep_fst]
  unfold commandClassify
  rw [h2]
  simp

/-- C3 amended, witness at a concrete input. -/
theorem command_only_notification_returns_raw_w :
    commandCore "AT" false (.Ok (encode "+RCV=1,1,x,-9,8\r\n")) [] =
      (.ok (.Ok (encode "+RCV=1,1,x,-9,8\r\n")), [encode "+RCV=1,1,x,-9,8"]) := by
  have h := command_only_notification_returns_raw "AT" false
      (encode "+RCV=1,1,x,-9,8\r\n") [] (by decide) (by decide)
  exact h

/-- C4 counterexample: a residue `+ERR=3` whose code 3 is not in the
error catalog makes `command` raise an uncaught KeyError (the dictionary
lookup escapes), instead of reporting a typed explicit error result. -/
theorem command_unknown_code_raises_cex :
    commandCore "AT" false (.Ok (encode "+ERR=3\r\n")) [] = (.error (.KeyError 3), []) ∧
    raisedB (commandCore "AT" false (.Ok (encode "+ERR=3\r\n")) []).1 = true := by
  exact ⟨rfl, rfl⟩

/-- C4 amended: on an `+ERR` residue (errors not ignored), when the code
parsed after `=` is in the catalog the returned CommandError carries
that code's exact documented description; when it is not, the lookup
raises an uncaught KeyError carrying the code. -/
theorem command_error_lookup : ∀ (cmd : String) raw buf cs c,
    bstartsWith (demuxStep (splitCRLF raw) raw buf).2 errMarker = true →
    (splitByte 61 (pystrip (demuxStep (splitCRLF raw) raw buf).2))[1]? = some cs →
    pyInt cs = some c →
    (∀ d, errorsDescr c = some d →
      commandCore cmd false (.Ok raw) buf =
        (.ok (.Err (.CommandError cmd d (pystrip (demuxStep (splitCRLF raw) raw buf).2))),
         (demuxStep (splitCRLF raw) raw buf).1)) ∧
    (errorsDescr c = none →
      commandCore cmd false (.Ok raw) buf =
        (.error (.KeyError c), (demuxStep (splitCRLF raw) raw buf).1)) := by
  intro cmd raw buf cs c h1 h2 h3
  constructor
  · intro d hd
    show commandClassify cmd false (demuxStep (splitCRLF raw) raw buf).2
        (demuxStep (splitCRLF raw) raw buf).1 = _
    unfold commandClassify
    rw [h1, h2]
    simp [h3, hd]
  · intro hd
    show commandClassify cmd false (demuxStep (splitCRLF raw) raw buf).2
        (demuxStep (splitCRLF raw) raw buf).1 = _
    unfold commandClassify
    rw [h1, h2]
    simp [h3, hd]

/-- C4 amended, witness: code 4 is in the catalog and the CommandError
carries its exact documented text. -/
theorem command_error_lookup_w :
    commandCore "AT+FOO" false (.Ok (encode "+ERR=4\r\n")) [] =
      (.ok (.Err (.CommandError "AT+FOO" "Unknown command." (encode "+ERR=4"))), []) := by
  have h := (command_error_lookup "AT+FOO" (encode "+ERR=4\r\n") [] (encode "4") 4
      (by decide) (by decide) (by decide)).1 "Unknown command." (by decide)
  exact h

/-! ## Helper lemmas about `setup` -/

lemma runCmds_writes_length_le (cmds : List (String × Bool)) :
    ∀ reads buf, (runCmds cmds reads buf).2.1.length ≤ cmds.length := by
  induction cmds with
  | nil => intro reads buf; simp [runCmds]
  | cons cb rest ih =>
    intro reads buf
    obtain ⟨c, ign⟩ := cb
    rcases hc : commandCore c ign (nextRead reads).1 buf with ⟨o, buf'⟩
    cases o with
    | error e => simp [runCmds, hc]
    | ok res =>
      rcases hr : runCmds rest (nextRead reads).2 buf' with ⟨o2, ws, buf2⟩
      have hlen := ih (nextRead reads).2 buf'
      rw [hr] at hlen
      cases o2 with
      | error e2 =>
        simp only [runCmds, hc, hr]
        simpa using Nat.succ_le_succ hlen
      | ok results =>
        simp only [runCmds, hc, hr]
        simpa using Nat.succ_le_succ hlen

lemma runCmds_ok_writes (cmds : List (String × Bool)) :
    ∀ reads buf results, (runCmds cmds reads buf).1 = .ok results →
      (runCmds cmds reads buf).2.1 = cmds.map (fun cb => encode cb.1 ++ crlf) := by
  induction cmds with
  | nil => intro reads buf results _; simp [runCmds]
  | cons cb rest ih =>
    intro reads buf results h
    obtain ⟨c, ign⟩ := cb
    rcases hc : commandCore c ign (nextRead reads).1 buf with ⟨o, buf'⟩
    cases o with
    | error e => simp [runCmds, hc] at h
    | ok res =>
      rcases hr : runCmds rest (nextRead reads).2 buf' with ⟨o2, ws, buf2⟩
      cases o2 with
      | error e2 => simp [runCmds, hc, hr] at h
      | ok results2 =>
        have hws := ih (nextRead reads).2 buf' results2 (by rw [hr])
        rw [hr] at hws
        simp only [runCmds, hc, hr]
        simpa using hws

lemma setupM_snd (nid addr sf bw cr pp : Nat) (reads : List (Result (List Nat) Exc))
    (buf : List (List Nat)) :
    (setupM nid addr sf bw cr pp reads buf).2 =
      (runCmds (setupCmds nid addr sf bw cr pp) reads buf).2 := by
  rcases h : runCmds (setupCmds nid addr sf bw cr pp) reads buf with ⟨o, ws, buf'⟩
  cases o with
  | error e => simp [setupM, h]
  | ok results =>
    rcases hf : firstErr results with _ | e
    · simp [setupM, h, hf]
    · simp [setupM, h, hf]

lemma firstErr_eq_none {α : Type} (rs : List (Result α Exc)) :
    firstErr rs = none ↔ ∀ e, Result.Err e ∉ rs := by
  induction rs with
  | nil => simp [firstErr]
  | cons r rest ih =>
    cases r with
    | Ok b => simp [firstErr, ih]
    | Err e =>
      simp only [firstErr]
      constructor
      · intro h; exact Option.noConfusion h
      · intro h; exact absurd (List.mem_cons_self _ _) (h e)

/-- C2 counterexample: with a scripted transport on which the
`AT+PARAMETER` step fails with `+ERR=4`, `setup` still writes FOUR
commands — the later `AT+ADDRESS` and `AT+NETWORKID` commands are
issued — so the write count is 4, not the claimed 2. -/
theorem setup_no_short_circuit_cex :
    (setupM 18 0 9 7 1 12
        [.Ok (encode "+OK\r\n"), .Ok (encode "+ERR=4\r\n"), .Ok (encode "+OK\r\n"),
         .Ok (encode "+OK\r\n")] []).2.1.length = 4 ∧
    ¬ ((setupM 18 0 9 7 1 12
        [.Ok (encode "+OK\r\n"), .Ok (encode "+ERR=4\r\n"), .Ok (encode "+OK\r\n"),
         .Ok (encode "+OK\r\n")] []).2.1.length = 2) ∧
    (encode "AT+ADDRESS=0" ++ crlf) ∈
      (setupM 18 0 9 7 1 12
        [.Ok (encode "+OK\r\n"), .Ok (encode "+ERR=4\r\n"), .Ok (encode "+OK\r\n"),
         .Ok (encode "+OK\r\n")] []).2.1 ∧
    (encode "AT+NETWORKID=18" ++ crlf) ∈
      (setupM 18 0 9 7 1 12
        [.Ok (encode "+OK\r\n"), .Ok (encode "+ERR=4\r\n"), .Ok (encode "+OK\r\n"),
         .Ok (encode "+OK\r\n")] []).2.1 := by
  exact ⟨rfl, by decide, by decide, by decide⟩

/-- C2 amended: `setup` issues at most four writes, and whenever it
returns a Result (no uncaught exception), it has issued exactly the
four commands of the fixed sequence; it returns unit success exactly
when none of the four results is a failure, and otherwise the first
failure in order; in the concrete scenario where `AT+PARAMETER` fails
with `+ERR=4`, all four writes still reach the transport and setup
returns that CommandError. -/
theorem setup_issues_all_four : ∀ (nid addr sf bw cr pp : Nat) reads buf,
    ((setupM nid addr sf bw cr pp reads buf).2.1.length ≤ 4) ∧
    (∀ o, (setupM nid addr sf bw cr pp reads buf).1 = .ok o →
        (setupM nid addr sf bw cr pp reads buf).2.1 =
          (setupCmds nid addr sf bw cr pp).map (fun cb => encode cb.1 ++ crlf)) ∧
    (∀ results, (runCmds (setupCmds nid addr sf bw cr pp) reads buf).1 = .ok results →
        ((setupM nid addr sf bw cr pp reads buf).1 = .ok (.Ok ()) ↔
          ∀ e, Result.Err e ∉ results)) ∧
    (setupM 18 0 9 7 1 12
        [.Ok (encode "+OK\r\n"), .Ok (encode "+ERR=4\r\n"), .Ok (encode "+OK\r\n"),
         .Ok (encode "+OK\r\n")] []).1 =
      .ok (.Err (.CommandError "AT+PARAMETER=9,7,1,12" "Unknown command."
        (encode "+ERR=4"))) ∧
    (setupM 18 0 9 7 1 12
        [.Ok (encode "+OK\r\n"), .Ok (encode "+ERR=4\r\n"), .Ok (encode "+OK\r\n"),
         .Ok (encode "+OK\r\n")] []).2.1.length = 4 ∧
    (setupM 18 0 9 7 1 12
        [.Ok (encode "+OK\r\n"), .Ok (encode "+OK\r\n"), .Ok (encode "+OK\r\n"),
         .Ok (encode "+OK\r\n")] []).1 = .ok (.Ok ()) := by
  intro nid addr sf bw cr pp reads buf
  refine ⟨?_, ?_, ?_, rfl, rfl, rfl⟩
  · rw [show (setupM nid addr sf bw cr pp reads buf).2.1 =
        (runCmds (setupCmds nid addr sf bw cr pp) reads buf).2.1 from by
      rw [setupM_snd]]
    have := runCmds_writes_length_le (setupCmds nid addr sf bw cr pp) reads buf
    simpa [setupCmds] using this
  · intro o ho
    rw [show (setupM nid addr sf bw cr pp reads buf).2.1 =
        (runCmds (setupCmds nid addr sf bw cr pp) reads buf).2.1 from by
      rw [setupM_snd]]
    rcases h : runCmds (setupCmds nid addr sf bw cr pp) reads buf with ⟨o2, ws, buf'⟩
    cases o2 with
    | error e => simp [setupM, h] at ho
    | ok results =>
      have hw := runCmds_ok_writes (setupCmds nid addr sf bw cr pp) reads buf results (by rw [h])
      rw [h] at hw
      exact hw
  · intro results hres
    rcases h : runCmds (setupCmds nid addr sf bw cr pp) reads buf with ⟨o2, ws, buf'⟩
    rw [h] at hres
    cases o2 with
    | error e => simp at hres
    | ok results2 =>
      have hr2 : results2 = results := by simpa using hres
      subst hr2
      rcases hf : firstErr results2 with _ | e
      · simp only [setupM, h, hf]
        constructor
        · intro _; exact (firstErr_eq_none results2).1 hf
        · intro _; trivial
      · simp only [setupM, h, hf]
        constructor
        · intro hbad
          exfalso
          have : Result.Err e = (Result.Ok () : Result Unit Exc) := by
            have := Except.ok.inj hbad
            exact this
          exact Result.noConfusion this
        · intro hall
          exfalso
          have : firstErr results2 = none := (firstErr_eq_none results2).2 hall
          rw [hf] at this
          exact Option.noConfusion this

/-- C2 amended, witness: in the all-success scenario setup returns to
the caller and exactly the four encoded commands were written. -/
theorem setup_issues_all_four_w :
    (setupM 18 0 9 7 1 12
        [.Ok (encode "+OK\r\n"), .Ok (encode "+OK\r\n"), .Ok (encode "+OK\r\n"),
         .Ok (encode "+OK\r\n")] []).2.1 =
      (setupCmds 18 0 9 7 1 12).map (fun cb => encode cb.1 ++ crlf) := by
  exact (setup_issues_all_four 18 0 9 7 1 12
      [.Ok (encode "+OK\r\n"), .Ok (encode "+OK\r\n"), .Ok (encode "+OK\r\n"),
       .Ok (encode "+OK\r\n")] []).2.1 (.Ok ()) rfl

/-! ## Helper lemmas about the receive scan and byte splitting -/

lemma recvScan_some (parts : List (List Nat)) : ∀ buf buf' p,
    recvScan parts buf = (buf', some p) →
    bstartsWith p rcvMarker = false ∧ p.isEmpty = false ∧ p ∈ parts := by
  induction parts with
  | nil => intro buf buf' p h; simp [recvScan] at h
  | cons q rest ih =>
    intro buf buf' p h
    by_cases hm : bstartsWith q rcvMarker = true
    · rw [show recvScan (q :: rest) buf = recvScan rest (buf ++ [q]) from by
        simp [recvScan, hm]] at h
      obtain ⟨a, b, c⟩ := ih _ _ _ h
      exact ⟨a, b, List.mem_cons_of_mem _ c⟩
    · by_cases he : q.isEmpty = true
      · rw [show recvScan (q :: rest) buf = recvScan rest buf from by
          simp [recvScan, hm, he]] at h
        obtain ⟨a, b, c⟩ := ih _ _ _ h
        exact ⟨a, b, List.mem_cons_of_mem _ c⟩
      · rw [show recvScan (q :: rest) buf = (buf, some q) from by
          simp [recvScan, hm, he]] at h
        have hp : q = p := by
          have := congrArg Prod.snd h
          simpa using this
        subst hp
        exact ⟨Bool.eq_false_iff.mpr hm, Bool.eq_false_iff.mpr he, List.mem_cons_self _ _⟩

/-- C5: when a `recv` scan completes with no unexpected line and the
buffer afterwards is non-empty, `recv` pops the FRONT item and parses
it: success yields the parsed fields, a parse exception yields a
failure carrying that exception and the original raw item, and in both
cases the item stays consumed (the buffer continues with the rest);
concretely `+RCV=5,3,abc,-40,9` parses to address 5, payload `abc`,
rssi -40, snr 9 (fields 0, 2, 3, 4 of the comma split after the 5-byte
marker), and a malformed notification is consumed, not re-queued. -/
theorem recv_parse_fields : ∀ raw buf buf' item rest,
    recvScan (splitCRLF raw) buf = (buf', none) →
    buf' = item :: rest →
    (recvCore (.Ok raw) buf =
       match parseNotif item with
       | .ok d => (.Ok d, rest)
       | .error e => (.Err ⟨e, item⟩, rest)) ∧
    (∀ e, parseNotif item = .error e → recvCore (.Ok raw) buf = (.Err ⟨e, item⟩, rest)) ∧
    parseNotif (encode "+RCV=5,3,abc,-40,9") = .ok ⟨5, encode "abc", -40, 9⟩ ∧
    recvCore (.Ok (encode "+RCV=oops\r\n")) [] =
      (.Err ⟨.ValueError, encode "+RCV=oops"⟩, []) := by
  intro raw buf buf' item rest h1 h2
  subst h2
  refine ⟨?_, ?_, rfl, rfl⟩
  · simp only [recvCore, h1]
  · intro e he
    simp only [recvCore, h1, he]

/-- C5 witness at the concrete notification of the claim. -/
theorem recv_parse_fields_w :
    recvCore (.Ok (encode "+RCV=5,3,abc,-40,9\r\n")) [] =
      (.Ok ⟨5, encode "abc", -40, 9⟩, []) := by
  have h := (recv_parse_fields (encode "+RCV=5,3,abc,-40,9\r\n") []
      [encode "+RCV=5,3,abc,-40,9"] (encode "+RCV=5,3,abc,-40,9") [] (by decide) rfl).1
  exact h.trans (by rfl)

/-- C7 counterexample: the failure `recv` produces for an unexpected
(non-notification) line is an `EmptyRecvError` — the SAME exception
class as the empty-queue failure, only the message and payload differ —
so it is not a distinct UnexpectedDataError kind. -/
theorem recv_unexpected_line_cex :
    (recvCore (.Ok (encode "+OK\r\n")) []).1 =
      .Err ⟨.EmptyRecvError "non +RCV data", encode "+OK"⟩ ∧
    (recvCore (.Ok ([] : List Nat)) []).1 =
      .Err ⟨.EmptyRecvError "recv buffer is empty", []⟩ ∧
    excClassName (.EmptyRecvError "non +RCV data") =
      excClassName (.EmptyRecvError "recv buffer is empty") := by
  exact ⟨rfl, rfl, rfl⟩

/-- C7 amended: when a successful `recv` read contains a non-empty line
not starting with `+RCV=`, `recv` fails immediately with an
`EmptyRecvError` whose message is "non +RCV data", carrying that
offending raw line; the failure shares its exception class with the
empty-queue failure and is distinguished only by message and payload. -/
theorem recv_unexpected_line : ∀ raw buf buf' p,
    recvScan (splitCRLF raw) buf = (buf', some p) →
    recvCore (.Ok raw) buf = (.Err ⟨.EmptyRecvError "non +RCV data", p⟩, buf') ∧
    bstartsWith p rcvMarker = false ∧ p.isEmpty = false ∧ p ∈ splitCRLF raw ∧
    excClassName (.EmptyRecvError "non +RCV data") =
      excClassName (.EmptyRecvError "recv buffer is empty") := by
  intro raw buf buf' p h
  obtain ⟨a, b, c⟩ := recvScan_some _ _ _ _ h
  exact ⟨by simp only [recvCore, h], a, b, c, rfl⟩

/-- C7 amended, witness. -/
theorem recv_unexpected_line_w :
    recvCore (.Ok (encode "+OK\r\n")) [] =
      (.Err ⟨.EmptyRecvError "non +RCV data", encode "+OK"⟩, []) := by
  exact (recv_unexpected_line (encode "+OK\r\n") [] [] (encode "+OK") rfl).1

lemma splitByte_ne_nil (sep : Nat) : ∀ s, splitByte sep s ≠ [] := by
  intro s
  induction s with
  | nil => exact fun h => List.noConfusion h
  | cons c rest ih =>
    by_cases h : (c == sep) = true
    · rw [show splitByte sep (c :: rest) = [] :: splitByte sep rest from by
        simp [splitByte, h]]
      exact fun hh => List.noConfusion hh
    · rcases hr : splitByte sep rest with _ | ⟨l, ls⟩
      · exact absurd hr ih
      · rw [show splitByte sep (c :: rest) = (c :: l) :: ls from by
          simp [splitByte, h, hr]]
        exact fun hh => List.noConfusion hh

lemma splitByte_join (sep : Nat) : ∀ s, joinByte sep (splitByte sep s) = s := by
  intro s
  induction s with
  | nil => rfl
  | cons c rest ih =>
    by_cases h : (c == sep) = true
    · have hc : c = sep := by simpa using h
      rw [show splitByte sep (c :: rest) = [] :: splitByte sep rest from by
        simp [splitByte, h]]
      rcases hr : splitByte sep rest with _ | ⟨l, ls⟩
      · exact absurd hr (splitByte_ne_nil sep rest)
      · rw [hr] at ih
        simp [joinByte, ih, hc]
    · rcases hr : splitByte sep rest with _ | ⟨l, ls⟩
      · exact absurd hr (splitByte_ne_nil sep rest)
      · rw [show splitByte sep (c :: rest) = (c :: l) :: ls from by
          simp [splitByte, h, hr]]
        rw [hr] at ih
        cases ls with
        | nil =>
          simp only [joinByte] at ih ⊢
          rw [ih]
        | cons y r =>
          simp only [joinByte] at ih ⊢
          simp [ih]

lemma splitByte_no_sep (sep : Nat) (s : List Nat) : ∀ p ∈ splitByte sep s, sep ∉ p := by
  induction s with
  | nil =>
    intro p hp
    have hpe : p = [] := by simpa [splitByte] using hp
    subst hpe
    simp
  | cons c rest ih =>
    intro p hp
    by_cases h : (c == sep) = true
    · rw [show splitByte sep (c :: rest) = [] :: splitByte sep rest from by
        simp [splitByte, h]] at hp
      rcases List.mem_cons.mp hp with h1 | h2
      · subst h1; simp
      · exact ih p h2
    · rcases hr : splitByte sep rest with _ | ⟨l, ls⟩
      · exact absurd hr (splitByte_ne_nil sep rest)
      · rw [show splitByte sep (c :: rest) = (c :: l) :: ls from by
          simp [splitByte, h, hr]] at hp
        rcases List.mem_cons.mp hp with h1 | h2
        · subst h1
          intro hmem
          rcases List.mem_cons.mp hmem with hc | hc
          · exact h (by simp [hc])
          · exact ih l (by rw [hr]; exact List.mem_cons_self _ _) hc
        · exact ih p (by rw [hr]; exact List.mem_cons_of_mem _ h2)

/-- C8 counterexample: on the successful reply `+FOO=a=b`, `query`
returns only `a` — the segment between the first and second `=` — and
not the whole remainder `a=b` after the first `=`. -/
theorem query_not_whole_remainder_cex :
    queryM "FOO" (.Ok (encode "+FOO=a=b\r\n")) [] = (.ok (.Ok (encode "a")), []) ∧
    encode "a" ≠ encode "a=b" := by
  exact ⟨rfl, by decide⟩

/-- C8 amended: on a successful reply, `query` strips whitespace and
returns element 1 of the `=`-split — the segment after the FIRST `=` up
to the next `=` or the end (that segment contains no `=`); a stripped
reply containing no `=` makes `query` raise an uncaught IndexError
rather than return an explicit error result. -/
theorem query_segment_between_eqs : ∀ (name : String) r buf b buf2,
    commandCore ("AT+" ++ name ++ "?") false r buf = (.ok (.Ok b), buf2) →
    (∀ x v rest2, splitByte 61 (pystrip b) = x :: v :: rest2 →
       queryM name r buf = (.ok (.Ok v), buf2) ∧
       pystrip b = x ++ 61 :: joinByte 61 (v :: rest2) ∧
       ¬ (61 ∈ x) ∧ ¬ (61 ∈ v)) ∧
    (∀ x, splitByte 61 (pystrip b) = [x] →
       queryM name r buf = (.error .IndexError, buf2)) := by
  intro name r buf b buf2 hc
  constructor
  · intro x v rest2 hs
    refine ⟨?_, ?_, ?_, ?_⟩
    · simp only [queryM, hc, hs]
      simp
    · have hj := splitByte_join 61 (pystrip b)
      rw [hs] at hj
      simp only [joinByte] at hj
      rw [← hj]
    · exact splitByte_no_sep 61 (pystrip b) x (by rw [hs]; exact List.mem_cons_self _ _)
    · exact splitByte_no_sep 61 (pystrip b) v (by rw [hs]; simp)
  · intro x hs
    simp only [queryM, hc, hs]
    simp

/-- C8 amended, witness: the reply `+FOO=a=b` yields `a`, which indeed
contains no `=`. -/
theorem query_segment_between_eqs_w :
    queryM "FOO" (.Ok (encode "+FOO=a=b\r\n")) [] = (.ok (.Ok (encode "a")), []) ∧
    ¬ (61 ∈ encode "a") := by
  have h := (query_segment_between_eqs "FOO" (.Ok (encode "+FOO=a=b\r\n")) []
      (encode "+FOO=a=b") [] rfl).1 (encode "+FOO") (encode "a") [encode "b"] (by decide)
  exact ⟨h.1, h.2.2.2⟩

/-! ## Helper lemmas about the poll loop of `read_raw` -/

lemma readRawAux_timeout_fires (timeout start : Nat) (clock : Nat → Nat)
    (uread : Except Nat (List Nat)) (h0 : timeout ≠ 0)
    (hadv : ∀ i, start + i ≤ clock i) :
    ∀ fuel i, timeout + 1 ≤ fuel + i → 1 ≤ fuel →
      readRawAux (fun _ => false) clock uread timeout start fuel i =
        some (.Err (.UARTTimeoutError timeout)) := by
  intro fuel
  induction fuel with
  | zero => intro i _ h1; exact absurd h1 (by omega)
  | succ f ih =>
    intro i hle _
    by_cases hC : timeout ≤ clock i - start
    · simp [readRawAux, h0, hC]
    · have hi : start + i ≤ clock i := hadv i
      have hif : i < timeout := by omega
      rw [show readRawAux (fun _ => false) clock uread timeout start (f + 1) i =
          readRawAux (fun _ => false) clock uread timeout start f (i + 1) from by
        simp [readRawAux, hC]]
      exact ih (i + 1) (by omega) (by omega)

lemma readRawAux_timeout_elapsed (anyF : Nat → Bool) (clock : Nat → Nat)
    (uread : Except Nat (List Nat)) (timeout start : Nat) :
    ∀ fuel i t, readRawAux anyF clock uread timeout start fuel i =
        some (.Err (.UARTTimeoutError t)) →
      ∃ j, timeout ≤ clock j - start := by
  intro fuel
  induction fuel with
  | zero => intro i t h; exact absurd h (by simp [readRawAux])
  | succ f ih =>
    intro i t h
    by_cases hA : anyF i = true
    · cases uread with
      | ok b =>
        rw [show readRawAux anyF clock (Except.ok b) timeout start (f + 1) i =
            some (.Ok b) from by simp [readRawAux, hA]] at h
        simp at h
      | error n =>
        rw [show readRawAux anyF clock (Except.error n) timeout start (f + 1) i =
            some (.Err (.OSError n)) from by simp [readRawAux, hA]] at h
        simp at h
    · by_cases hC : timeout ≠ 0 ∧ timeout ≤ clock i - start
      · exact ⟨i, hC.2⟩
      · rw [show readRawAux anyF clock uread timeout start (f + 1) i =
            readRawAux anyF clock uread timeout start f (i + 1) from by
          simp [readRawAux, hA, hC]] at h
        exact ih (i + 1) t h

/-- C6: against a transport whose has-data poll never fires, a nonzero
timeout makes the poll loop of `read_raw` terminate (fuel timeout+1
suffices when the clock advances at least one unit per iteration) with
the UARTTimeoutError failure; any timeout failure is only produced at
an iteration whose elapsed time reached the timeout; `recv` wraps such
a read failure unchanged as its own failure with empty raw bytes; and
the timeout failure is distinct from a transport OSError failure. -/
theorem recv_timeout_fails : ∀ (timeout start : Nat) (clock : Nat → Nat)
    (uread : Except Nat (List Nat)) (buf : List (List Nat)),
    timeout ≠ 0 → (∀ i, start + i ≤ clock i) →
    (readRawAux (fun _ => false) clock uread timeout start (timeout + 1) 0 =
        some (.Err (.UARTTimeoutError timeout))) ∧
    (∀ (anyF : Nat → Bool) fuel i t,
        readRawAux anyF clock uread timeout start fuel i =
          some (.Err (.UARTTimeoutError t)) →
        ∃ j, timeout ≤ clock j - start) ∧
    (∀ e, recvCore (.Err e) buf = (.Err ⟨e, []⟩, buf)) ∧
    (∀ n t, Exc.UARTTimeoutError t ≠ Exc.OSError n) := by
  intro timeout start clock uread buf h0 hadv
  refine ⟨?_, ?_, ?_, ?_⟩
  · exact readRawAux_timeout_fires timeout start clock uread h0 hadv
      (timeout + 1) 0 (by omega) (by omega)
  · intro anyF fuel i t h
    exact readRawAux_timeout_elapsed anyF clock uread timeout start fuel i t h
  · intro e; rfl
  · intro n t h; exact Exc.noConfusion h

/-- C6 witness: timeout 2, clock advancing one unit per poll. -/
theorem recv_timeout_fails_w :
    readRawAux (fun _ => false) (fun i => i) (Except.ok ([] : List Nat)) 2 0 3 0 =
      some (.Err (.UARTTimeoutError 2)) ∧
    recvCore (.Err (.UARTTimeoutError 2)) [] = (.Err ⟨.UARTTimeoutError 2, []⟩, []) := by
  have h := recv_timeout_fails 2 0 (fun i => i) (Except.ok []) []
      (by decide) (fun i => by simp)
  exact ⟨h.1, h.2.2.1 (.UARTTimeoutError 2)⟩

/-- C10: with timeout 0 (the default), the timeout branch of `read_raw`
is unreachable: whenever the poll loop returns, the outcome is never a
UARTTimeoutError — it is the read bytes on success or an OSError-wrapped
transport exception — and against a transport that never reports data
the loop never returns (it keeps polling for any amount of fuel). -/
theorem read_raw_zero_no_timeout : ∀ (anyF : Nat → Bool) (clock : Nat → Nat)
    (uread : Except Nat (List Nat)) (start : Nat),
    (∀ fuel i res, readRawAux anyF clock uread 0 start fuel i = some res →
        isTimeoutRes res = false ∧
        ((∃ b, uread = .ok b ∧ res = .Ok b) ∨
         (∃ n, uread = .error n ∧ res = .Err (.OSError n)))) ∧
    ((∀ j, anyF j = false) →
        ∀ fuel i, readRawAux anyF clock uread 0 start fuel i = none) := by
  intro anyF clock uread start
  constructor
  · intro fuel
    induction fuel with
    | zero => intro i res h; exact absurd h (by simp [readRawAux])
    | succ f ih =>
      intro i res h
      by_cases hA : anyF i = true
      · cases uread with
        | ok b =>
          rw [show readRawAux anyF clock (Except.ok b) 0 start (f + 1) i =
              some (.Ok b) from by simp [readRawAux, hA]] at h
          have hres : res = .Ok b := by simpa using h.symm
          subst hres
          exact ⟨rfl, .inl ⟨b, rfl, rfl⟩⟩
        | error n =>
          rw [show readRawAux anyF clock (Except.error n) 0 start (f + 1) i =
              some (.Err (.OSError n)) from by simp [readRawAux, hA]] at h
          have hres : res = .Err (.OSError n) := by simpa using h.symm
          subst hres
          exact ⟨rfl, .inr ⟨n, rfl, rfl⟩⟩
      · rw [show readRawAux anyF clock uread 0 start (f + 1) i =
            readRawAux anyF clock uread 0 start f (i + 1) from by
          simp [readRawAux, hA]] at h
        exact ih (i + 1) res h
  · intro hnone fuel
    induction fuel with
    | zero => intro i; rfl
    | succ f ih =>
      intro i
      rw [show readRawAux anyF clock uread 0 start (f + 1) i =
          readRawAux anyF clock uread 0 start f (i + 1) from by
        simp [readRawAux, hnone i]]
      exact ih (i + 1)

/-- C10 witness: a returning loop yields a non-timeout outcome; a
never-fires poll with timeout 0 stays blocked. -/
theorem read_raw_zero_no_timeout_w :
    isTimeoutRes (.Ok ([] : List Nat)) = false ∧
    readRawAux (fun _ => false) (fun i => i) (Except.ok ([] : List Nat)) 0 0 5 0 = none := by
  refine ⟨?_, ?_⟩
  · exact ((read_raw_zero_no_timeout (fun _ => true) (fun i => i)
      (Except.ok []) 0).1 1 0 (.Ok []) rfl).1
  · exact (read_raw_zero_no_timeout (fun _ => false) (fun i => i)
      (Except.ok []) 0).2 (fun j => rfl) 5 0

/-! ## Helper lemmas for the queue invariant -/

lemma commandCore_snd (c : String) (ign : Bool) (r : Result (List Nat) Exc)
    (buf : List (List Nat)) :
    ∃ new, (commandCore c ign r buf).2 = buf ++ new ∧
      ∀ b ∈ new, bstartsWith b rcvMarker = true := by
  cases r with
  | Err e => exact ⟨[], by simp [commandCore], by simp⟩
  | Ok raw =>
    refine ⟨(splitCRLF raw).filter (fun p => bstartsWith p rcvMarker), ?_, ?_⟩
    · show (commandClassify c ign (demuxStep (splitCRLF raw) raw buf).2
          (demuxStep (splitCRLF raw) raw buf).1).2 = _
      rw [commandClassify_snd, demuxStep_fst]
    · intro b hb
      exact (List.mem_filter.mp hb).2

lemma recvScan_fst (parts : List (List Nat)) : ∀ buf,
    ∃ new, (recvScan parts buf).1 = buf ++ new ∧
      ∀ b ∈ new, bstartsWith b rcvMarker = true := by
  induction parts with
  | nil => intro buf; exact ⟨[], by simp [recvScan], by simp⟩
  | cons q rest ih =>
    intro buf
    by_cases hm : bstartsWith q rcvMarker = true
    · obtain ⟨new, h1, h2⟩ := ih (buf ++ [q])
      refine ⟨q :: new, ?_, ?_⟩
      · rw [show recvScan (q :: rest) buf = recvScan rest (buf ++ [q]) from by
          simp [recvScan, hm]]
        rw [h1]
        simp
      · intro b hb
        rcases List.mem_cons.mp hb with h | h
        · subst h; exact hm
        · exact h2 b h
    · by_cases he : q.isEmpty = true
      · obtain ⟨new, h1, h2⟩ := ih buf
        refine ⟨new, ?_, h2⟩
        rw [show recvScan (q :: rest) buf = recvScan rest buf from by
          simp [recvScan, hm, he]]
        exact h1
      · refine ⟨[], ?_, by simp⟩
        rw [show recvScan (q :: rest) buf = (buf, some q) from by
          simp [recvScan, hm, he]]
        simp

lemma recvCore_snd (r : Result (List Nat) Exc) (buf : List (List Nat)) :
    ∃ new, ((recvCore r buf).2 = buf ++ new ∨ (recvCore r buf).2 = (buf ++ new).tail) ∧
      ∀ b ∈ new, bstartsWith b rcvMarker = true := by
  cases r with
  | Err e => exact ⟨[], .inl (by simp [recvCore]), by simp⟩
  | Ok raw =>
    obtain ⟨new, h1, h2⟩ := recvScan_fst (splitCRLF raw) buf
    rcases hscan : recvScan (splitCRLF raw) buf with ⟨buf', opt⟩
    rw [hscan] at h1
    have h1' : buf' = buf ++ new := h1
    cases opt with
    | some p =>
      refine ⟨new, .inl ?_, h2⟩
      rw [show recvCore (.Ok raw) buf =
          (.Err ⟨.EmptyRecvError "non +RCV data", p⟩, buf') from by
        simp only [recvCore, hscan]]
      exact h1'
    | none =>
      cases hb : buf' with
      | nil =>
        refine ⟨new, .inl ?_, h2⟩
        rw [show recvCore (.Ok raw) buf =
            (.Err ⟨.EmptyRecvError "recv buffer is empty", []⟩, []) from by
          simp only [recvCore, hscan, hb]]
        have hnil : buf ++ new = [] := by rw [← h1', hb]
        exact hnil.symm
      | cons item rest =>
        cases hp : parseNotif item with
        | ok d =>
          refine ⟨new, .inr ?_, h2⟩
          rw [show recvCore (.Ok raw) buf = (.Ok d, rest) from by
            simp only [recvCore, hscan, hb, hp]]
          rw [← h1', hb]
          rfl
        | error e =>
          refine ⟨new, .inr ?_, h2⟩
          rw [show recvCore (.Ok raw) buf = (.Err ⟨e, item⟩, rest) from by
            simp only [recvCore, hscan, hb, hp]]
          rw [← h1', hb]
          rfl

lemma runCmds_buf (cmds : List (String × Bool)) : ∀ reads buf,
    ∃ new, (runCmds cmds reads buf).2.2 = buf ++ new ∧
      ∀ b ∈ new, bstartsWith b rcvMarker = true := by
  induction cmds with
  | nil => intro reads buf; exact ⟨[], by simp [runCmds], by simp⟩
  | cons cb rest ih =>
    intro reads buf
    obtain ⟨c, ign⟩ := cb
    obtain ⟨new1, hn1, hm1⟩ := commandCore_snd c ign (nextRead reads).1 buf
    rcases hc : commandCore c ign (nextRead reads).1 buf with ⟨o, buf'⟩
    rw [hc] at hn1
    have hn1' : buf' = buf ++ new1 := hn1
    cases o with
    | error e =>
      refine ⟨new1, ?_, hm1⟩
      simp only [runCmds, hc]
      exact hn1'
    | ok res =>
      obtain ⟨new2, hn2, hm2⟩ := ih (nextRead reads).2 buf'
      rcases hr : runCmds rest (nextRead reads).2 buf' with ⟨o2, ws, buf2⟩
      rw [hr] at hn2
      have hn2' : buf2 = buf' ++ new2 := hn2
      refine ⟨new1 ++ new2, ?_, ?_⟩
      · cases o2 with
        | error e2 =>
          simp only [runCmds, hc, hr]
          rw [hn2', hn1', List.append_assoc]
        | ok results =>
          simp only [runCmds, hc, hr]
          rw [hn2', hn1', List.append_assoc]
      · intro b hb
        rcases List.mem_append.mp hb with h | h
        · exact hm1 b h
        · exact hm2 b h

lemma setupM_buf (nid addr sf bw cr pp : Nat) (reads : List (Result (List Nat) Exc))
    (buf : List (List Nat)) :
    ∃ new, (setupM nid addr sf bw cr pp reads buf).2.2 = buf ++ new ∧
      ∀ b ∈ new, bstartsWith b rcvMarker = true := by
  obtain ⟨new, h1, h2⟩ := runCmds_buf (setupCmds nid addr sf bw cr pp) reads buf
  refine ⟨new, ?_, h2⟩
  rw [setupM_snd]
  exact h1

lemma queryM_snd (name : String) (r : Result (List Nat) Exc) (buf : List (List Nat)) :
    (queryM name r buf).2 = (commandCore ("AT+" ++ name ++ "?") false r buf).2 := by
  rcases hc : commandCore ("AT+" ++ name ++ "?") false r buf with ⟨o, buf'⟩
  cases o with
  | error e => simp [queryM, hc]
  | ok res =>
    cases res with
    | Err e => simp [queryM, hc]
    | Ok b =>
      rcases hs : (splitByte 61 (pystrip b))[1]? with _ | v
      · simp [queryM, hc, hs]
      · simp [queryM, hc, hs]

lemma reachable_all_marker : ∀ buf, ReachableBuf buf →
    ∀ b ∈ buf, bstartsWith b rcvMarker = true := by
  intro buf h
  induction h with
  | init => intro b hb; simp at hb
  | cmd c ign r buf0 _ ih =>
    obtain ⟨new, h1, h2⟩ := commandCore_snd c ign r buf0
    rw [h1]
    intro b hb
    rcases List.mem_append.mp hb with h | h
    · exact ih b h
    · exact h2 b h
  | rcv r buf0 _ ih =>
    obtain ⟨new, h1, h2⟩ := recvCore_snd r buf0
    intro b hb
    rcases h1 with h1 | h1
    · rw [h1] at hb
      rcases List.mem_append.mp hb with h | h
      · exact ih b h
      · exact h2 b h
    · rw [h1] at hb
      have hmem : b ∈ buf0 ++ new := List.mem_of_mem_tail hb
      rcases List.mem_append.mp hmem with h | h
      · exact ih b h
      · exact h2 b h
  | setupStep nid addr sf bw cr pp reads buf0 _ ih =>
    obtain ⟨new, h1, h2⟩ := setupM_buf nid addr sf bw cr pp reads buf0
    rw [h1]
    intro b hb
    rcases List.mem_append.mp hb with h | h
    · exact ih b h
    · exact h2 b h
  | queryStep name r buf0 _ ih =>
    obtain ⟨new, h1, h2⟩ := commandCore_snd ("AT+" ++ name ++ "?") false r buf0
    rw [queryM_snd, h1]
    intro b hb
    rcases List.mem_append.mp hb with h | h
    · exact ih b h
    · exact h2 b h

/-- C9: in every reachable state of the receive buffer, every queued
element starts with the `+RCV=` marker; `command` only ever appends
marker-bearing fragments at the end (arrival order), and `recv` either
appends marker-bearing fragments or additionally removes the FRONT
(oldest) element — the queue is FIFO. -/
theorem notif_queue_invariant : ∀ buf, ReachableBuf buf →
    (∀ b ∈ buf, bstartsWith b rcvMarker = true) ∧
    (∀ (c : String) (ign : Bool) r, ∃ new,
        (commandCore c ign r buf).2 = buf ++ new ∧
        ∀ b ∈ new, bstartsWith b rcvMarker = true) ∧
    (∀ r, ∃ new,
        ((recvCore r buf).2 = buf ++ new ∨ (recvCore r buf).2 = (buf ++ new).tail) ∧
        ∀ b ∈ new, bstartsWith b rcvMarker = true) := by
  intro buf h
  exact ⟨reachable_all_marker buf h,
         fun c ign r => commandCore_snd c ign r buf,
         fun r => recvCore_snd r buf⟩

/-- C9 witness: a buffer reached through one `command` call holds the
enqueued fragment, which indeed starts with the marker. -/
theorem notif_queue_invariant_w :
    bstartsWith (encode "+RCV=1,1,a,-1,1") rcvMarker = true := by
  have h := (notif_queue_invariant
      (commandCore "AT" false (.Ok (encode "+RCV=1,1,a,-1,1\r\n+OK\r\n")) []).2
      (ReachableBuf.cmd "AT" false (.Ok (encode "+RCV=1,1,a,-1,1\r\n+OK\r\n")) []
        ReachableBuf.init)).1
  exact h (encode "+RCV=1,1,a,-1,1") (by decide)

end LoRaWrap
